import Mathlib

/-!
Shallow embedding of the etlgo ETL/metrics pipeline.

Modelling conventions:
* Go `time.Time` instants are `Int` seconds on a uniform timeline; the day key
  produced by `Format("2006-01-02")` is floor division by 86400 (`Int./` is
  Euclidean division, which is floor division for a positive divisor), and
  `AddDate(0,0,1)` is `+ 86400`.  The zero `time.Time` (January 1, year 1 UTC)
  is the sentinel `goZeroTime`.
* Go `float64` money fields are modelled as `ℚ`, Go `int` as `Int`, counters as
  `Nat`.
* The in-memory day-partitioned repositories (`map[string][]T` guarded by a
  lock) are association lists from day key to the slice stored for that day;
  map iteration order of the aggregation stage is an explicit `keys` argument.
* Raw date strings are parsed by a character-level model of `time.Parse`
  restricted to the layouts the service uses (fixed-width numeric fields,
  range validation of month/day/clock fields, whole-input consumption).
-/

namespace Etlgo

/-- Day key of an instant, as produced by Go's `Format("2006-01-02")`. -/
def dayKey (t : Int) : Int := t / 86400

/-- The zero `time.Time` (January 1, year 1 UTC) in seconds relative to the
Unix epoch: `var latestDate time.Time` starts at this sentinel. -/
def goZeroTime : Int := -62135596800

/-- `domain.UTMKey` (src/internal/domain/ads.go). -/
structure UTMKey where
  Campaign : String
  Source : String
  Medium : String
deriving DecidableEq

/-- `domain.AdPerformance`: a raw ad record with an unparsed date string. -/
structure AdPerformance where
  Date : String
  CampaignID : String
  Channel : String
  Clicks : Int
  Impressions : Int
  Cost : ℚ
  UTMCampaign : String
  UTMSource : String
  UTMMedium : String
deriving DecidableEq

/-- `domain.ProcessedAdData`: a normalized ad record. -/
structure ProcessedAdData where
  Date : Int
  CampaignID : String
  Channel : String
  Clicks : Int
  Impressions : Int
  Cost : ℚ
  UTMCampaign : String
  UTMSource : String
  UTMMedium : String
  ProcessedAt : Int
deriving DecidableEq

/-- `domain.OpportunityStage` constants; the Go type is a string type, so the
stage field stays a `String` and unknown stages are representable. -/
def StageLead : String := "lead"

/-- Stage constant `domain.StageOpportunity`. -/
def StageOpportunity : String := "opportunity"

/-- Stage constant `domain.StageClosedWon`. -/
def StageClosedWon : String := "closed_won"

/-- Stage constant `domain.StageClosedLost`. -/
def StageClosedLost : String := "closed_lost"

/-- `domain.Opportunity`: a raw CRM record with an unparsed date string. -/
structure Opportunity where
  OpportunityID : String
  ContactEmail : String
  Stage : String
  Amount : ℚ
  CreatedAt : String
  UTMCampaign : String
  UTMSource : String
  UTMMedium : String
deriving DecidableEq

/-- `domain.ProcessedOpportunity`: a normalized CRM record. -/
structure ProcessedOpportunity where
  OpportunityID : String
  ContactEmail : String
  Stage : String
  Amount : ℚ
  CreatedAt : Int
  UTMCampaign : String
  UTMSource : String
  UTMMedium : String
  ProcessedAt : Int
deriving DecidableEq

/-- `domain.BusinessMetrics`: one bucket per (run, UTM key). -/
structure BusinessMetrics where
  Date : Int
  Channel : String
  CampaignID : String
  UTMCampaign : String
  UTMSource : String
  UTMMedium : String
  Clicks : Int
  Impressions : Int
  Cost : ℚ
  Leads : Nat
  Opportunities : Nat
  ClosedWon : Nat
  Revenue : ℚ
  CPC : ℚ
  CPA : ℚ
  CVRLeadToOpp : ℚ
  CVROppToWon : ℚ
  ROAS : ℚ
  CalculatedAt : Int
deriving DecidableEq

/-- `domain.MetricsFilter`. -/
structure MetricsFilter where
  From : Option Int
  To : Option Int
  Channel : String
  CampaignID : String
  UTMCampaign : String
  UTMSource : String
  UTMMedium : String
  Limit : Int
  Offset : Int
deriving DecidableEq

/-- `domain.MetricsResponse`. -/
structure MetricsResponse where
  Data : List BusinessMetrics
  Total : Nat
  Limit : Int
  Offset : Int
  HasMore : Bool
deriving DecidableEq

/-- `domain.ExportData`: the flat projection exported per bucket; the
`"YYYY-MM-DD"` date string is represented by the day key. -/
structure ExportData where
  Date : Int
  Channel : String
  CampaignID : String
  Clicks : Int
  Impressions : Int
  Cost : ℚ
  Leads : Nat
  Opportunities : Nat
  ClosedWon : Nat
  Revenue : ℚ
  CPC : ℚ
  CPA : ℚ
  CVRLeadToOpp : ℚ
  CVROppToWon : ℚ
  ROAS : ℚ
deriving DecidableEq

/-- A day-partitioned in-memory store: association list from day key to the
records appended under that day (`map[string][]T` in the repositories). -/
abbrev PartStore (α : Type) := List (Int × List α)

/-- Slice stored under day key `k` (map read; missing key yields `[]`). -/
def lookupDay {α : Type} : PartStore α → Int → List α
  | [], _ => []
  | (k₀, l) :: rest, k => if k₀ = k then l else lookupDay rest k

/-- Append one record under day key `k`
(`r.data[dateKey] = append(r.data[dateKey], x)`). -/
def storeInsert {α : Type} : PartStore α → Int → α → PartStore α
  | [], k, a => [(k, [a])]
  | (k₀, l) :: rest, k, a =>
      if k₀ = k then (k₀, l ++ [a]) :: rest else (k₀, l) :: storeInsert rest k a

/-- `Store` of the repositories: append every record of the batch under the
day key of its own timestamp. -/
def storeBatch {α : Type} (keyOf : α → Int) (s : PartStore α) (batch : List α) :
    PartStore α :=
  batch.foldl (fun st a => storeInsert st (dayKey (keyOf a)) a) s

/-- The instants visited by the repository scan loop
`for date := from; !date.After(to); date = date.AddDate(0, 0, 1)`. -/
def scanTimes (lo hi : Int) : List Int :=
  if lo ≤ hi then
    (List.range ((hi - lo).toNat / 86400 + 1)).map (fun k : Nat => lo + 86400 * (k : Int))
  else []

/-- Concatenate the partitions of every day visited between `lo` and `hi`
(`GetByDateRange` body, shared with the collection phase of `GetByFilter`). -/
def collectRange {α : Type} (s : PartStore α) (lo hi : Int) : List α :=
  (scanTimes lo hi).flatMap (fun t => lookupDay s (dayKey t))

namespace AdRepository

/-- `AdRepository.Store` (src/internal/infrastructure/ad_repository.go). -/
def Store (s : PartStore ProcessedAdData) (ads : List ProcessedAdData) :
    PartStore ProcessedAdData :=
  storeBatch (fun a => a.Date) s ads

/-- `AdRepository.GetByDateRange`. -/
def GetByDateRange (s : PartStore ProcessedAdData) (lo hi : Int) :
    List ProcessedAdData :=
  collectRange s lo hi

end AdRepository

/-- `MetricsRepository.matchesFilter`: exact match on each set filter field. -/
def matchesFilter (m : BusinessMetrics) (f : MetricsFilter) : Bool :=
  (f.Channel == "" || m.Channel == f.Channel) &&
  (f.CampaignID == "" || m.CampaignID == f.CampaignID) &&
  (f.UTMCampaign == "" || m.UTMCampaign == f.UTMCampaign) &&
  (f.UTMSource == "" || m.UTMSource == f.UTMSource) &&
  (f.UTMMedium == "" || m.UTMMedium == f.UTMMedium)

/-- Comparator of the `sort.Slice` call: ascending by `Date`. -/
def dateLE (a b : BusinessMetrics) : Prop := a.Date ≤ b.Date

instance : DecidableRel dateLE := fun a b => inferInstanceAs (Decidable (a.Date ≤ b.Date))

instance : IsTotal BusinessMetrics dateLE := ⟨fun a b => Int.le_total a.Date b.Date⟩

instance : IsTrans BusinessMetrics dateLE := ⟨fun _ _ _ hab hbc => le_trans hab hbc⟩

/-- The in-place `sort.Slice(filteredMetrics, ...Date.Before...)`, modelled by
a deterministic sort producing some permutation ascending by date. -/
def sortByDate (l : List BusinessMetrics) : List BusinessMetrics :=
  List.insertionSort dateLE l

/-- Effective lower date bound: `filter.From`, else `now` minus 365 days. -/
def effFrom (f : MetricsFilter) (now : Int) : Int :=
  match f.From with
  | some x => x
  | none => now - 365 * 86400

/-- Effective upper date bound: `filter.To`, else `now`. -/
def effTo (f : MetricsFilter) (now : Int) : Int :=
  match f.To with
  | some x => x
  | none => now

/-- Effective limit: `filter.Limit` when positive, else the default 100. -/
def effLimit (f : MetricsFilter) : Int :=
  if 0 < f.Limit then f.Limit else 100

/-- Effective offset: `filter.Offset` when positive, else the default 0. -/
def effOffset (f : MetricsFilter) : Int :=
  if 0 < f.Offset then f.Offset else 0

/-- The pagination block of `GetByFilter`: clamp `start`/`end` to
`[0, total]` and slice `sorted[start:end]` (empty when `start ≥ end`). -/
def sliceClamped (sorted : List BusinessMetrics) (total offset limit : Int) :
    List BusinessMetrics :=
  let start := if total < offset then total else offset
  let stop := if total < offset + limit then total else offset + limit
  if start < stop then (sorted.drop start.toNat).take (stop - start).toNat else []

namespace MetricsRepository

/-- `MetricsRepository.Store` (src/unnamed/part_003). -/
def Store (s : PartStore BusinessMetrics) (ms : List BusinessMetrics) :
    PartStore BusinessMetrics :=
  storeBatch (fun m => m.Date) s ms

/-- The metrics matching the filter, collected over the effective date range
(the state of `filteredMetrics` in `GetByFilter` before sorting). -/
def filteredFor (s : PartStore BusinessMetrics) (now : Int) (f : MetricsFilter) :
    List BusinessMetrics :=
  (collectRange s (effFrom f now) (effTo f now)).filter (fun m => matchesFilter m f)

/-- `MetricsRepository.GetByFilter` (src/unnamed/part_003): collect over the
date range, filter, sort ascending by date, paginate. -/
def GetByFilter (s : PartStore BusinessMetrics) (now : Int) (f : MetricsFilter) :
    MetricsResponse :=
  let filtered := filteredFor s now f
  let sorted := sortByDate filtered
  let limit := effLimit f
  let offset := effOffset f
  let total : Int := filtered.length
  { Data := sliceClamped sorted total offset limit
    Total := filtered.length
    Limit := limit
    Offset := offset
    HasMore := decide ((if total < offset + limit then total else offset + limit) < total) }

/-- `MetricsRepository.GetByDate`: the partition of the date's day key. -/
def GetByDate (s : PartStore BusinessMetrics) (date : Int) : List BusinessMetrics :=
  lookupDay s (dayKey date)

end MetricsRepository

/-- The export projection built by `MetricsService.ExportMetrics`. -/
def toExportData (m : BusinessMetrics) : ExportData :=
  { Date := dayKey m.Date
    Channel := m.Channel
    CampaignID := m.CampaignID
    Clicks := m.Clicks
    Impressions := m.Impressions
    Cost := m.Cost
    Leads := m.Leads
    Opportunities := m.Opportunities
    ClosedWon := m.ClosedWon
    Revenue := m.Revenue
    CPC := m.CPC
    CPA := m.CPA
    CVRLeadToOpp := m.CVRLeadToOpp
    CVROppToWon := m.CVROppToWon
    ROAS := m.ROAS }

/-- Outcome of `MetricsService.ExportMetrics`: the distinct "no data" error,
an export-client failure, or success. -/
inductive ExportOutcome where
  | noData (day : Int)
  | exportFailed (msg : String)
  | exported (records : List ExportData)
deriving DecidableEq

/-- `MetricsService.ExportMetrics` (src/internal/usecase/metrics_service.go):
read the date's metrics; when none are stored return the distinct "no data"
error before the export client is consulted; otherwise call the client. -/
def ExportMetrics (s : PartStore BusinessMetrics) (date : Int)
    (client : List ExportData → Except String Unit) : ExportOutcome :=
  let ms := MetricsRepository.GetByDate s date
  if ms.isEmpty then .noData (dayKey date)
  else
    match client (ms.map toExportData) with
    | .error e => .exportFailed e
    | .ok _ => .exported (ms.map toExportData)

/-- A parsed calendar timestamp: the fields Go's `time.Parse` extracts for the
layouts this service uses, plus the zone offset in minutes (0 for layouts
without a zone; RFC 3339 carries `Z` or a signed `hh:mm` offset). -/
structure DateParts where
  year : Nat
  month : Nat
  day : Nat
  hour : Nat
  minute : Nat
  second : Nat
  offsetMin : Int
deriving DecidableEq

/-- Value of a decimal digit character, `none` otherwise. -/
def digitVal (c : Char) : Option Nat :=
  if c.isDigit then some (c.toNat - 48) else none

/-- A fixed-width two-digit numeric field (Go layout `01`/`02`/`15`/`04`/`05`
with `fixed = true`: exactly two digits). -/
def num2 : List Char → Option (Nat × List Char)
  | c₁ :: c₂ :: rest =>
      match digitVal c₁, digitVal c₂ with
      | some a, some b => some (10 * a + b, rest)
      | _, _ => none
  | _ => none

/-- A fixed-width four-digit numeric field (Go layout `2006`). -/
def num4 : List Char → Option (Nat × List Char)
  | c₁ :: c₂ :: c₃ :: c₄ :: rest =>
      match digitVal c₁, digitVal c₂, digitVal c₃, digitVal c₄ with
      | some a, some b, some c, some d => some (1000 * a + 100 * b + 10 * c + d, rest)
      | _, _, _, _ => none
  | _ => none

/-- Consume one expected literal character of the layout. -/
def expectChar (ch : Char) : List Char → Option (List Char)
  | c :: rest => if c = ch then some rest else none
  | [] => none

/-- Gregorian leap-year rule (as in Go's `isLeap`). -/
def isLeap (y : Nat) : Bool :=
  (y % 4 == 0 && y % 100 != 0) || y % 400 == 0

/-- Days in a month (Go's `daysIn`). -/
def daysInMonth (y m : Nat) : Nat :=
  if m == 2 then (if isLeap y then 29 else 28)
  else if m == 4 || m == 6 || m == 9 || m == 11 then 30
  else 31

/-- Go's post-parse range validation of a calendar date
(`month out of range`, `day out of range`). -/
def validDate (y m d : Nat) : Bool :=
  decide (1 ≤ m) && decide (m ≤ 12) && decide (1 ≤ d) && decide (d ≤ daysInMonth y m)

/-- A `year sep month sep day` prefix, returning the fields and the rest. -/
def parseYMDCore (sep : Char) (s : List Char) : Option ((Nat × Nat × Nat) × List Char) := do
  let (y, s) ← num4 s
  let s ← expectChar sep s
  let (m, s) ← num2 s
  let s ← expectChar sep s
  let (d, s) ← num2 s
  pure ((y, m, d), s)

/-- A `hh:mm:ss` clock prefix with Go's range validation, optionally followed
by a fractional-seconds field `.d+` (consumed and discarded, as `time.Parse`
accepts a fraction after the seconds even when the layout has none). -/
def parseHMSCore (s : List Char) : Option ((Nat × Nat × Nat) × List Char) := do
  let (hh, s) ← num2 s
  let s ← expectChar (':') s
  let (mm, s) ← num2 s
  let s ← expectChar (':') s
  let (ss, s) ← num2 s
  if hh ≤ 23 && mm ≤ 59 && ss ≤ 59 then
    match s with
    | '.' :: c :: rest =>
        match digitVal c with
        | some _ => pure ((hh, mm, ss), rest.dropWhile (fun c => c.isDigit))
        | none => none
    | _ => pure ((hh, mm, ss), s)
  else none

/-- The RFC 3339 zone suffix `Z` or `±hh:mm`, as offset minutes. -/
def parseZone : List Char → Option (Int × List Char)
  | 'Z' :: rest => some (0, rest)
  | '+' :: rest => do
      let (hh, s) ← num2 rest
      let s ← expectChar (':') s
      let (mm, s) ← num2 s
      if hh ≤ 23 && mm ≤ 59 then pure (((hh : Int) * 60 + mm, s)) else none
  | '-' :: rest => do
      let (hh, s) ← num2 rest
      let s ← expectChar (':') s
      let (mm, s) ← num2 s
      if hh ≤ 23 && mm ≤ 59 then pure ((-((hh : Int) * 60 + mm), s)) else none
  | _ => none

/-- The date layouts appearing in `processAdsData` and `processCRMData`. -/
inductive Layout where
  | ymdDash
  | ymdSlash
  | mdy
  | dmy
  | rfc3339
  | ymdHMSDash
  | ymdHMSSlash
deriving DecidableEq

/-- `time.Parse layout s` for one of the service's layouts: match the fixed
fields and literals, require the whole input consumed, validate ranges. -/
def parseLayout (layout : Layout) (s : String) : Option DateParts :=
  let cs := s.toList
  match layout with
  | .ymdDash => do
      let ((y, m, d), rest) ← parseYMDCore ('-') cs
      if rest.isEmpty && validDate y m d then pure ⟨y, m, d, 0, 0, 0, 0⟩ else none
  | .ymdSlash => do
      let ((y, m, d), rest) ← parseYMDCore ('/') cs
      if rest.isEmpty && validDate y m d then pure ⟨y, m, d, 0, 0, 0, 0⟩ else none
  | .mdy => do
      let (m, s) ← num2 cs
      let s ← expectChar ('/') s
      let (d, s) ← num2 s
      let s ← expectChar ('/') s
      let (y, rest) ← num4 s
      if rest.isEmpty && validDate y m d then pure ⟨y, m, d, 0, 0, 0, 0⟩ else none
  | .dmy => do
      let (d, s) ← num2 cs
      let s ← expectChar ('/') s
      let (m, s) ← num2 s
      let s ← expectChar ('/') s
      let (y, rest) ← num4 s
      if rest.isEmpty && validDate y m d then pure ⟨y, m, d, 0, 0, 0, 0⟩ else none
  | .rfc3339 => do
      let ((y, m, d), s) ← parseYMDCore ('-') cs
      let s ← expectChar ('T') s
      let ((hh, mm, ss), s) ← parseHMSCore s
      let (off, rest) ← parseZone s
      if rest.isEmpty && validDate y m d then pure ⟨y, m, d, hh, mm, ss, off⟩ else none
  | .ymdHMSDash => do
      let ((y, m, d), s) ← parseYMDCore ('-') cs
      let s ← expectChar (' ') s
      let ((hh, mm, ss), rest) ← parseHMSCore s
      if rest.isEmpty && validDate y m d then pure ⟨y, m, d, hh, mm, ss, 0⟩ else none
  | .ymdHMSSlash => do
      let ((y, m, d), s) ← parseYMDCore ('/') cs
      let s ← expectChar (' ') s
      let ((hh, mm, ss), rest) ← parseHMSCore s
      if rest.isEmpty && validDate y m d then pure ⟨y, m, d, hh, mm, ss, 0⟩ else none

/-- The ad-source layout priority order of `processAdsData`:
`YYYY-MM-DD`, `YYYY/MM/DD`, `MM/DD/YYYY`, `DD/MM/YYYY`, RFC 3339. -/
def adDateFormats : List Layout :=
  [.ymdDash, .ymdSlash, .mdy, .dmy, .rfc3339]

/-- The CRM-source layout priority order of `processCRMData`. -/
def crmDateFormats : List Layout :=
  [.rfc3339, .ymdHMSDash, .ymdDash, .ymdHMSSlash, .ymdSlash]

/-- The per-record parse loop `for _, format := range dateFormats { ... break }`:
try each layout in order, stopping at the first success. -/
def parseFlexibleDate : List Layout → String → Option DateParts
  | [], _ => none
  | f :: rest, s =>
      match parseLayout f s with
      | some d => some d
      | none => parseFlexibleDate rest s

/-- Days from the Unix epoch to a civil date (proleptic Gregorian). -/
def daysFromCivil (y m d : Nat) : Int :=
  let y1 : Int := if m ≤ 2 then (y : Int) - 1 else (y : Int)
  let era : Int := y1 / 400
  let yoe : Int := y1 - era * 400
  let mp : Int := ((m + 9) % 12 : Nat)
  let doy : Int := (153 * mp + 2) / 5 + ((d : Int) - 1)
  let doe : Int := yoe * 365 + yoe / 4 - yoe / 100 + doy
  era * 146097 + doe - 719468

/-- The instant a parsed timestamp denotes, in seconds: Go converts the parsed
fields and zone offset to an absolute `time.Time`. -/
def toInstant (p : DateParts) : Int :=
  86400 * daysFromCivil p.year p.month p.day +
    3600 * (p.hour : Int) + 60 * (p.minute : Int) + (p.second : Int) -
    60 * p.offsetMin

/-- The since-cutoff test of the transform stage:
`since != nil && date.Before(*since)` (strictly before). -/
def droppedBySince (since : Option Int) (t : Int) : Bool :=
  match since with
  | some s => decide (t < s)
  | none => false

/-- The UTM normalization applied per field: empty becomes `"unknown"`,
anything else is kept unchanged. -/
def normalizeUTM (v : String) : String :=
  if v = "" then "unknown" else v

/-- The normalized record `processAdsData` appends for a kept ad. -/
def normalizeAd (ad : AdPerformance) (t : Int) (now : Int) : ProcessedAdData :=
  { Date := t
    CampaignID := ad.CampaignID
    Channel := ad.Channel
    Clicks := ad.Clicks
    Impressions := ad.Impressions
    Cost := ad.Cost
    UTMCampaign := normalizeUTM ad.UTMCampaign
    UTMSource := normalizeUTM ad.UTMSource
    UTMMedium := normalizeUTM ad.UTMMedium
    ProcessedAt := now }

/-- `ETLService.processAdsData`: per record, parse the date through the ad
layouts (on failure count one `date_parse` failure and continue), apply the
optional strict `since` cutoff silently, normalize UTM fields and emit.
Returns the normalized batch and the `date_parse` failure count. -/
def processAdsData (ads : List AdPerformance) (since : Option Int) (now : Int) :
    List ProcessedAdData × Nat :=
  match ads with
  | [] => ([], 0)
  | ad :: rest =>
      let (ps, fails) := processAdsData rest since now
      match parseFlexibleDate adDateFormats ad.Date with
      | none => (ps, fails + 1)
      | some dp =>
          let t := toInstant dp
          if droppedBySince since t then (ps, fails)
          else
            ({ Date := t
               CampaignID := ad.CampaignID
               Channel := ad.Channel
               Clicks := ad.Clicks
               Impressions := ad.Impressions
               Cost := ad.Cost
               UTMCampaign := if ad.UTMCampaign = "" then "unknown" else ad.UTMCampaign
               UTMSource := if ad.UTMSource = "" then "unknown" else ad.UTMSource
               UTMMedium := if ad.UTMMedium = "" then "unknown" else ad.UTMMedium
               ProcessedAt := now } :: ps, fails)

/-- UTM grouping key of a normalized ad record. -/
def groupKeyAd (a : ProcessedAdData) : UTMKey :=
  ⟨a.UTMCampaign, a.UTMSource, a.UTMMedium⟩

/-- UTM grouping key of a normalized opportunity. -/
def groupKeyOpp (o : ProcessedOpportunity) : UTMKey :=
  ⟨o.UTMCampaign, o.UTMSource, o.UTMMedium⟩

/-- The latest-date selection loop of `calculateMetricForUTM`: starting from
the zero time and empty channel/campaign, update the triple whenever the
current record's date is strictly after the running latest
(`if ad.Date.After(latestDate)`). -/
def selLatest : List ProcessedAdData → Int → String → String → Int × String × String
  | [], d, c, i => (d, c, i)
  | a :: rest, d, c, i =>
      if d < a.Date then selLatest rest a.Date a.Channel a.CampaignID
      else selLatest rest d c i

/-- `ETLService.calculateMetricForUTM`: `nil` for a group with no ad records;
otherwise sum the ad totals, select date/channel/campaign from the
latest-date loop, count opportunities by stage, sum won revenue, and compute
the zero-guarded derived ratios. -/
def calculateMetricForUTM (ads : List ProcessedAdData)
    (opps : List ProcessedOpportunity) (utm : UTMKey) (now : Int) :
    Option BusinessMetrics :=
  if ads.isEmpty then none
  else
    let totalClicks : Int := (ads.map (fun a => a.Clicks)).sum
    let totalImpressions : Int := (ads.map (fun a => a.Impressions)).sum
    let totalCost : ℚ := (ads.map (fun a => a.Cost)).sum
    let sel := selLatest ads goZeroTime ("") ("")
    let leads : Nat := (opps.filter (fun o => o.Stage == StageLead)).length
    let oppCount : Nat := (opps.filter (fun o => o.Stage == StageOpportunity)).length
    let closedWon : Nat := (opps.filter (fun o => o.Stage == StageClosedWon)).length
    let revenue : ℚ := ((opps.filter (fun o => o.Stage == StageClosedWon)).map (fun o => o.Amount)).sum
    some
      { Date := sel.1
        Channel := sel.2.1
        CampaignID := sel.2.2
        UTMCampaign := utm.Campaign
        UTMSource := utm.Source
        UTMMedium := utm.Medium
        Clicks := totalClicks
        Impressions := totalImpressions
        Cost := totalCost
        Leads := leads
        Opportunities := oppCount
        ClosedWon := closedWon
        Revenue := revenue
        CPC := if 0 < totalClicks then totalCost / (totalClicks : ℚ) else 0
        CPA := if 0 < leads then totalCost / (leads : ℚ) else 0
        CVRLeadToOpp := if 0 < leads then (oppCount : ℚ) / (leads : ℚ) else 0
        CVROppToWon := if 0 < oppCount then (closedWon : ℚ) / (oppCount : ℚ) else 0
        ROAS := if 0 < totalCost then revenue / totalCost else 0
        CalculatedAt := now }

/-- `ETLService.calculateMetricsWithWorkerPool`: group ads and opportunities
by UTM key and emit one bucket per dispatched key; `keys` is the (map-order
dependent) iteration order of the dispatched jobs, and a `nil` result from
`calculateMetricForUTM` is skipped. -/
def calculateMetricsWithWorkerPool (ads : List ProcessedAdData)
    (opps : List ProcessedOpportunity) (keys : List UTMKey) (now : Int) :
    List BusinessMetrics :=
  keys.filterMap (fun k =>
    calculateMetricForUTM
      (ads.filter (fun a => groupKeyAd a == k))
      (opps.filter (fun o => groupKeyOpp o == k)) k now)

/-! ## Helper lemmas -/

/-- Unfolding of `calculateMetricForUTM` on a non-empty ad group. -/
theorem calc_eq_some (ads : List ProcessedAdData) (opps : List ProcessedOpportunity)
    (utm : UTMKey) (now : Int) (hne : ads ≠ []) :
    calculateMetricForUTM ads opps utm now = some
      { Date := (selLatest ads goZeroTime ("") ("")).1
        Channel := (selLatest ads goZeroTime ("") ("")).2.1
        CampaignID := (selLatest ads goZeroTime ("") ("")).2.2
        UTMCampaign := utm.Campaign
        UTMSource := utm.Source
        UTMMedium := utm.Medium
        Clicks := (ads.map (fun a => a.Clicks)).sum
        Impressions := (ads.map (fun a => a.Impressions)).sum
        Cost := (ads.map (fun a => a.Cost)).sum
        Leads := (opps.filter (fun o => o.Stage == StageLead)).length
        Opportunities := (opps.filter (fun o => o.Stage == StageOpportunity)).length
        ClosedWon := (opps.filter (fun o => o.Stage == StageClosedWon)).length
        Revenue := ((opps.filter (fun o => o.Stage == StageClosedWon)).map (fun o => o.Amount)).sum
        CPC := if 0 < (ads.map (fun a => a.Clicks)).sum then
            (ads.map (fun a => a.Cost)).sum / (((ads.map (fun a => a.Clicks)).sum : Int) : ℚ) else 0
        CPA := if 0 < (opps.filter (fun o => o.Stage == StageLead)).length then
            (ads.map (fun a => a.Cost)).sum / (((opps.filter (fun o => o.Stage == StageLead)).length : Nat) : ℚ) else 0
        CVRLeadToOpp := if 0 < (opps.filter (fun o => o.Stage == StageLead)).length then
            (((opps.filter (fun o => o.Stage == StageOpportunity)).length : Nat) : ℚ) /
              (((opps.filter (fun o => o.Stage == StageLead)).length : Nat) : ℚ) else 0
        CVROppToWon := if 0 < (opps.filter (fun o => o.Stage == StageOpportunity)).length then
            (((opps.filter (fun o => o.Stage == StageClosedWon)).length : Nat) : ℚ) /
              (((opps.filter (fun o => o.Stage == StageOpportunity)).length : Nat) : ℚ) else 0
        ROAS := if 0 < (ads.map (fun a => a.Cost)).sum then
            ((opps.filter (fun o => o.Stage == StageClosedWon)).map (fun o => o.Amount)).sum /
              (ads.map (fun a => a.Cost)).sum else 0
        CalculatedAt := now } := by
  unfold calculateMetricForUTM
  rw [if_neg (by simp [List.isEmpty_iff, hne])]

/-- A group with no ad records yields no bucket. -/
theorem calc_empty_none (opps : List ProcessedOpportunity) (utm : UTMKey) (now : Int) :
    calculateMetricForUTM [] opps utm now = none := by
  simp [calculateMetricForUTM]

/-- The latest-date loop either keeps its accumulator (when no record beats
it) or returns the first record whose date exceeds every earlier record and
is not exceeded later: first-seen-wins on ties of the maximum. -/
theorem selLatest_spec (ads : List ProcessedAdData) :
    ∀ (d : Int) (c i : String),
      ((∀ a ∈ ads, a.Date ≤ d) ∧ selLatest ads d c i = (d, c, i)) ∨
      (∃ w pre post, ads = pre ++ w :: post ∧ d < w.Date ∧
        (∀ b ∈ pre, b.Date < w.Date) ∧ (∀ b ∈ post, b.Date ≤ w.Date) ∧
        selLatest ads d c i = (w.Date, w.Channel, w.CampaignID)) := by
  induction ads with
  | nil => intro d c i; left; exact ⟨by simp, rfl⟩
  | cons a rest ih =>
    intro d c i
    by_cases hd : d < a.Date
    · rcases ih a.Date a.Channel a.CampaignID with ⟨hall, heq⟩ | ⟨w, pre, post, hsplit, hw, hpre, hpost, heq⟩
      · right
        exact ⟨a, [], rest, by simp, hd, by simp, hall, by simp [selLatest, hd, heq]⟩
      · right
        refine ⟨w, a :: pre, post, by simp [hsplit], lt_trans hd hw, ?_, hpost,
          by simp [selLatest, hd, heq]⟩
        intro b hb
        rcases List.mem_cons.mp hb with hb | hb
        · exact hb ▸ hw
        · exact hpre b hb
    · rcases ih d c i with ⟨hall, heq⟩ | ⟨w, pre, post, hsplit, hw, hpre, hpost, heq⟩
      · left
        refine ⟨?_, by simp [selLatest, hd, heq]⟩
        intro b hb
        rcases List.mem_cons.mp hb with hb | hb
        · exact hb ▸ le_of_not_lt hd
        · exact hall b hb
      · right
        refine ⟨w, a :: pre, post, by simp [hsplit], hw, ?_, hpost,
          by simp [selLatest, hd, heq]⟩
        intro b hb
        rcases List.mem_cons.mp hb with hb | hb
        · exact hb ▸ lt_of_le_of_lt (le_of_not_lt hd) hw
        · exact hpre b hb

/-! ## C1 -/

/-- Two ads sharing the latest date: iteration meets `c1AdA` first. -/
def c1AdA : ProcessedAdData :=
  { Date := 86400, CampaignID := "campA", Channel := "chanA", Clicks := 1,
    Impressions := 1, Cost := 0, UTMCampaign := "s", UTMSource := "g",
    UTMMedium := "m", ProcessedAt := 0 }

/-- Second ad of the tie, encountered later in iteration order. -/
def c1AdB : ProcessedAdData :=
  { Date := 86400, CampaignID := "campB", Channel := "chanB", Clicks := 1,
    Impressions := 1, Cost := 0, UTMCampaign := "s", UTMSource := "g",
    UTMMedium := "m", ProcessedAt := 0 }

/-- C1 counterexample: with two records sharing the latest date, the emitted
bucket's channel/campaign_id come from the record encountered FIRST
(`c1AdA`), not from the later one as the claim's last-seen-wins tie-break
asserts. -/
theorem c1_tie_counterexample :
    (calculateMetricForUTM [c1AdA, c1AdB] [] ⟨"s", "g", "m"⟩ 0).map
        (fun m => (m.Channel, m.CampaignID)) = some ("chanA", "campA") ∧
    ("chanA", "campA") ≠ (c1AdB.Channel, c1AdB.CampaignID) := by
  constructor
  · rw [calc_eq_some [c1AdA, c1AdB] [] ⟨"s", "g", "m"⟩ 0 (by simp)]
    simp [selLatest, c1AdA, c1AdB, goZeroTime]
  · simp [c1AdB]

/-- C1 (amended): the bucket's date is the maximum date of the group, and its
channel/campaign_id are those of the FIRST record in iteration order
attaining that maximum (ties broken first-seen-wins, because the update
condition `ad.Date.After(latestDate)` is strict). -/
theorem c1_latest_date_first_seen_wins (ads : List ProcessedAdData)
    (opps : List ProcessedOpportunity) (utm : UTMKey) (now : Int)
    (hne : ads ≠ []) (hpos : ∀ a ∈ ads, goZeroTime < a.Date) :
    ∃ w pre post m, ads = pre ++ w :: post ∧
      (∀ b ∈ pre, b.Date < w.Date) ∧ (∀ b ∈ ads, b.Date ≤ w.Date) ∧
      calculateMetricForUTM ads opps utm now = some m ∧
      m.Date = w.Date ∧ m.Channel = w.Channel ∧ m.CampaignID = w.CampaignID := by
  rcases selLatest_spec ads goZeroTime ("") ("") with ⟨hall, _⟩ | ⟨w, pre, post, hsplit, _, hpre, hpost, heq⟩
  · obtain ⟨a, ha⟩ := List.exists_mem_of_ne_nil ads hne
    exact absurd (hall a ha) (not_le.mpr (hpos a ha))
  · refine ⟨w, pre, post, _, hsplit, hpre, ?_, calc_eq_some ads opps utm now hne, ?_, ?_, ?_⟩
    · intro b hb
      rw [hsplit] at hb
      rcases List.mem_append.mp hb with hb | hb
      · exact le_of_lt (hpre b hb)
      · rcases List.mem_cons.mp hb with hb | hb
        · exact hb ▸ le_refl _
        · exact hpost b hb
    · simp [heq]
    · simp [heq]
    · simp [heq]

/-- Witness for the amended C1 at a concrete tied group. -/
theorem c1_latest_date_first_seen_wins_witness :
    ∃ w pre post m, [c1AdA, c1AdB] = pre ++ w :: post ∧
      (∀ b ∈ pre, b.Date < w.Date) ∧ (∀ b ∈ [c1AdA, c1AdB], b.Date ≤ w.Date) ∧
      calculateMetricForUTM [c1AdA, c1AdB] [] ⟨"s", "g", "m"⟩ 0 = some m ∧
      m.Date = w.Date ∧ m.Channel = w.Channel ∧ m.CampaignID = w.CampaignID :=
  c1_latest_date_first_seen_wins [c1AdA, c1AdB] [] ⟨"s", "g", "m"⟩ 0 (by simp)
    (by intro a ha; rcases List.mem_cons.mp ha with h | h
        · rw [h]; decide
        · rcases List.mem_cons.mp h with h | h
          · rw [h]; decide
          · simp at h)

/-! ## C2 -/

/-- C2: every bucket emitted by the aggregation stage belongs to a UTM key
with at least one ad record in the input; a UTM group with opportunities but
no ad records never yields a bucket. -/
theorem c2_bucket_requires_ad_record (ads : List ProcessedAdData)
    (opps : List ProcessedOpportunity) (keys : List UTMKey) (now : Int)
    (m : BusinessMetrics)
    (hm : m ∈ calculateMetricsWithWorkerPool ads opps keys now) :
    ∃ a ∈ ads, groupKeyAd a = ⟨m.UTMCampaign, m.UTMSource, m.UTMMedium⟩ := by
  unfold calculateMetricsWithWorkerPool at hm
  rw [List.mem_filterMap] at hm
  obtain ⟨k, _, hcalc⟩ := hm
  rcases hfe : ads.filter (fun a => groupKeyAd a == k) with _ | ⟨a, rest⟩
  · rw [hfe] at hcalc
    rw [calc_empty_none] at hcalc
    cases hcalc
  · have ha : a ∈ ads.filter (fun a => groupKeyAd a == k) := by
      rw [hfe]; exact List.mem_cons_self a rest
    have ha' := List.mem_filter.mp ha
    have hkey : groupKeyAd a = k := by simpa using ha'.2
    rw [hfe] at hcalc
    rw [calc_eq_some (a :: rest) _ k now (by simp)] at hcalc
    have hm2 := (Option.some.injEq _ _).mp hcalc
    refine ⟨a, ha'.1, ?_⟩
    rw [hkey, ← hm2]

/-- Ad record for the C2 witness. -/
def c2Ad : ProcessedAdData :=
  { Date := 86400, CampaignID := "c1", Channel := "google", Clicks := 0,
    Impressions := 10, Cost := 0, UTMCampaign := "s", UTMSource := "g",
    UTMMedium := "cpc", ProcessedAt := 0 }

/-- The bucket the worker pool emits for `c2Ad`'s UTM group. -/
def c2Bucket : BusinessMetrics :=
  { Date := 86400, Channel := "google", CampaignID := "c1", UTMCampaign := "s",
    UTMSource := "g", UTMMedium := "cpc", Clicks := 0, Impressions := 10,
    Cost := 0, Leads := 0, Opportunities := 0, ClosedWon := 0, Revenue := 0,
    CPC := 0, CPA := 0, CVRLeadToOpp := 0, CVROppToWon := 0, ROAS := 0,
    CalculatedAt := 0 }

/-- Witness for C2 at a concrete run with one UTM group. -/
theorem c2_bucket_requires_ad_record_witness :
    ∃ a ∈ [c2Ad], groupKeyAd a =
      ⟨c2Bucket.UTMCampaign, c2Bucket.UTMSource, c2Bucket.UTMMedium⟩ :=
  c2_bucket_requires_ad_record [c2Ad] [] [⟨"s", "g", "cpc"⟩] 0 c2Bucket (by
    have h : calculateMetricsWithWorkerPool [c2Ad] [] [⟨"s", "g", "cpc"⟩] 0 = [c2Bucket] := by
      unfold calculateMetricsWithWorkerPool
      simp only [List.filterMap_cons, List.filterMap_nil, List.filter_nil]
      rw [show (List.filter (fun a => groupKeyAd a == (⟨"s", "g", "cpc"⟩ : UTMKey)) [c2Ad]) = [c2Ad] from rfl]
      rw [calc_eq_some [c2Ad] [] ⟨"s", "g", "cpc"⟩ 0 (by simp)]
      simp only [List.map_cons, List.map_nil, List.sum_cons, List.sum_nil,
        List.filter_nil, List.length_nil]
      norm_num [c2Ad, c2Bucket, selLatest, goZeroTime]
    rw [h]
    exact List.mem_singleton.mpr rfl)

/-! ## C4 -/

/-- C4: every derived ratio of an emitted bucket equals its quotient when the
denominator is positive and is exactly 0 when the denominator is zero. -/
theorem c4_ratio_zero_guards (ads : List ProcessedAdData)
    (opps : List ProcessedOpportunity) (utm : UTMKey) (now : Int)
    (hne : ads ≠ []) :
    ∃ m, calculateMetricForUTM ads opps utm now = some m ∧
      (0 < m.Clicks → m.CPC = m.Cost / ((m.Clicks : Int) : ℚ)) ∧
      (m.Clicks = 0 → m.CPC = 0) ∧
      (0 < m.Leads → m.CPA = m.Cost / ((m.Leads : Nat) : ℚ)) ∧
      (m.Leads = 0 → m.CPA = 0) ∧
      (0 < m.Leads → m.CVRLeadToOpp = ((m.Opportunities : Nat) : ℚ) / ((m.Leads : Nat) : ℚ)) ∧
      (m.Leads = 0 → m.CVRLeadToOpp = 0) ∧
      (0 < m.Opportunities → m.CVROppToWon = ((m.ClosedWon : Nat) : ℚ) / ((m.Opportunities : Nat) : ℚ)) ∧
      (m.Opportunities = 0 → m.CVROppToWon = 0) ∧
      (0 < m.Cost → m.ROAS = m.Revenue / m.Cost) ∧
      (m.Cost = 0 → m.ROAS = 0) := by
  refine ⟨_, calc_eq_some ads opps utm now hne, ?_, ?_, ?_, ?_, ?_, ?_, ?_, ?_, ?_, ?_⟩
  · intro h; exact if_pos h
  · intro h; dsimp only at h ⊢; rw [if_neg]; rw [h]; exact lt_irrefl 0
  · intro h; exact if_pos h
  · intro h; dsimp only at h ⊢; rw [if_neg]; rw [h]; exact lt_irrefl 0
  · intro h; exact if_pos h
  · intro h; dsimp only at h ⊢; rw [if_neg]; rw [h]; exact lt_irrefl 0
  · intro h; exact if_pos h
  · intro h; dsimp only at h ⊢; rw [if_neg]; rw [h]; exact lt_irrefl 0
  · intro h; exact if_pos h
  · intro h; dsimp only at h ⊢; rw [if_neg]; rw [h]; exact lt_irrefl 0

/-- Witness for C4 on a concrete one-record group. -/
theorem c4_ratio_zero_guards_witness :
    ∃ m, calculateMetricForUTM [c2Ad] [] ⟨"s", "g", "cpc"⟩ 0 = some m ∧
      (0 < m.Clicks → m.CPC = m.Cost / ((m.Clicks : Int) : ℚ)) ∧
      (m.Clicks = 0 → m.CPC = 0) ∧
      (0 < m.Leads → m.CPA = m.Cost / ((m.Leads : Nat) : ℚ)) ∧
      (m.Leads = 0 → m.CPA = 0) ∧
      (0 < m.Leads → m.CVRLeadToOpp = ((m.Opportunities : Nat) : ℚ) / ((m.Leads : Nat) : ℚ)) ∧
      (m.Leads = 0 → m.CVRLeadToOpp = 0) ∧
      (0 < m.Opportunities → m.CVROppToWon = ((m.ClosedWon : Nat) : ℚ) / ((m.Opportunities : Nat) : ℚ)) ∧
      (m.Opportunities = 0 → m.CVROppToWon = 0) ∧
      (0 < m.Cost → m.ROAS = m.Revenue / m.Cost) ∧
      (m.Cost = 0 → m.ROAS = 0) :=
  c4_ratio_zero_guards [c2Ad] [] ⟨"s", "g", "cpc"⟩ 0 (by simp)

/-! ## C8 -/

/-- C8: exporting a date with zero stored metrics yields the distinct
"no data" outcome, never invokes the export client (the outcome is the same
for every client), and is not the systemic export-failure outcome. -/
theorem c8_export_no_data (s : PartStore BusinessMetrics) (date : Int)
    (c₁ c₂ : List ExportData → Except String Unit)
    (h : MetricsRepository.GetByDate s date = []) :
    ExportMetrics s date c₁ = ExportOutcome.noData (dayKey date) ∧
    ExportMetrics s date c₁ = ExportMetrics s date c₂ ∧
    (∀ e, ExportOutcome.noData (dayKey date) ≠ ExportOutcome.exportFailed e) := by
  refine ⟨by simp [ExportMetrics, h], by simp [ExportMetrics, h], ?_⟩
  intro e hne
  cases hne

/-- Witness for C8 on the empty store. -/
theorem c8_export_no_data_witness :
    ExportMetrics [] 0 (fun _ => Except.ok ()) = ExportOutcome.noData (dayKey 0) :=
  (c8_export_no_data [] 0 (fun _ => Except.ok ()) (fun _ => Except.error ("boom")) rfl).1

/-! ## Store lemmas -/

/-- Reading after a single append: the queried day gains `a` at its end. -/
theorem lookupDay_storeInsert {α : Type} (s : PartStore α) (k k' : Int) (a : α) :
    lookupDay (storeInsert s k a) k' =
      lookupDay s k' ++ (if k' = k then [a] else []) := by
  induction s with
  | nil =>
    by_cases h : k = k'
    · simp [storeInsert, lookupDay, h]
    · have h2 : ¬(k' = k) := fun e => h e.symm
      simp [storeInsert, lookupDay, h, h2]
  | cons p rest ih =>
    obtain ⟨k₀, l⟩ := p
    by_cases h : k₀ = k
    · subst h
      by_cases h' : k₀ = k'
      · subst h'
        simp [storeInsert, lookupDay]
      · have h2 : ¬(k' = k₀) := fun e => h' e.symm
        simp [storeInsert, lookupDay, h', h2]
    · by_cases h' : k₀ = k'
      · subst h'
        simp [storeInsert, lookupDay, h]
      · simp [storeInsert, lookupDay, h, h', ih]

/-- Reading after a batch append: the queried day gains, in order, every
batch record whose date falls on that day. -/
theorem lookupDay_storeBatch {α : Type} (keyOf : α → Int) (batch : List α) :
    ∀ (s : PartStore α) (k : Int),
      lookupDay (storeBatch keyOf s batch) k =
        lookupDay s k ++ batch.filter (fun a => decide (dayKey (keyOf a) = k)) := by
  induction batch with
  | nil => intro s k; simp [storeBatch]
  | cons a rest ih =>
    intro s k
    have h1 : storeBatch keyOf s (a :: rest) =
        storeBatch keyOf (storeInsert s (dayKey (keyOf a)) a) rest := rfl
    rw [h1, ih, lookupDay_storeInsert, List.filter_cons]
    by_cases h : dayKey (keyOf a) = k
    · simp [h, List.append_assoc]
    · have h2 : ¬(k = dayKey (keyOf a)) := fun e => h e.symm
      simp [h, h2]

/-- One step of the grouping permutation: when `key x` occurs exactly once in
`days`, concatenating the per-day filters of `x :: xs` is a permutation of
`x` consed onto the per-day filters of `xs`. -/
theorem flatMap_filter_cons_perm {α : Type} (key : α → Int) (x : α) (xs : List α) :
    ∀ (days : List Int), days.Nodup → key x ∈ days →
      (days.flatMap (fun d => (x :: xs).filter (fun a => decide (key a = d)))).Perm
        (x :: days.flatMap (fun d => xs.filter (fun a => decide (key a = d)))) := by
  intro days
  induction days with
  | nil => intro _ h; simp at h
  | cons d ds ih =>
    intro hnd hmem
    have hnd' := List.nodup_cons.mp hnd
    rw [List.flatMap_cons, List.flatMap_cons]
    by_cases hxd : key x = d
    · rw [List.filter_cons, if_pos (by simp [hxd])]
      have hcongr : ds.flatMap (fun e => (x :: xs).filter (fun a => decide (key a = e))) =
          ds.flatMap (fun e => xs.filter (fun a => decide (key a = e))) := by
        apply List.flatMap_congr
        intro e he
        rw [List.filter_cons, if_neg]
        have hne : key x ≠ e := by
          rw [hxd]
          intro hde
          exact hnd'.1 (hde ▸ he)
        simp [hne]
      rw [hcongr, List.cons_append]
    · rw [List.filter_cons, if_neg (by simp [hxd])]
      have hmem' : key x ∈ ds := by
        rcases List.mem_cons.mp hmem with h | h
        · exact absurd h hxd
        · exact h
      have hstep := ih hnd'.2 hmem'
      exact (List.Perm.append_left _ hstep).trans List.perm_middle

/-- Concatenating per-day filters over a duplicate-free day list covering
every record's day is a permutation of the record list. -/
theorem perm_flatMap_filter {α : Type} (key : α → Int) :
    ∀ (l : List α) (days : List Int), days.Nodup → (∀ a ∈ l, key a ∈ days) →
      (days.flatMap (fun d => l.filter (fun a => decide (key a = d)))).Perm l := by
  intro l
  induction l with
  | nil => intro days _ _; simp
  | cons x xs ih =>
    intro days hnd hcov
    have h1 := flatMap_filter_cons_perm key x xs days hnd (hcov x (List.mem_cons_self x xs))
    exact h1.trans (List.Perm.cons x (ih days hnd (fun a ha => hcov a (List.mem_cons_of_mem x ha))))

/-- The day keys visited by the scan loop. -/
def scanDays (lo hi : Int) : List Int := (scanTimes lo hi).map dayKey

/-- For `lo ≤ hi` the visited day keys are `dayKey lo, …, dayKey lo + steps`. -/
theorem scanDays_eq (lo hi : Int) (h : lo ≤ hi) :
    scanDays lo hi =
      (List.range ((hi - lo).toNat / 86400 + 1)).map (fun k : Nat => dayKey lo + (k : Int)) := by
  unfold scanDays scanTimes
  rw [if_pos h, List.map_map]
  apply List.map_congr_left
  intro k _
  show dayKey (lo + 86400 * (k : Int)) = dayKey lo + k
  unfold dayKey
  omega

/-- The visited day keys are pairwise distinct. -/
theorem scanDays_nodup (lo hi : Int) : (scanDays lo hi).Nodup := by
  by_cases h : lo ≤ hi
  · rw [scanDays_eq lo hi h]
    refine List.Nodup.map ?_ (List.nodup_range _)
    intro a b hab
    have hab2 : dayKey lo + (a : Int) = dayKey lo + (b : Int) := hab
    omega
  · unfold scanDays scanTimes
    rw [if_neg h]
    simp

/-- When the scan endpoints' times of day are aligned (`lo % 86400 ≤
hi % 86400`), the visited day keys cover the day of every instant in
`[lo, hi]`. -/
theorem mem_scanDays_of_bounds (lo hi x : Int)
    (h1 : lo ≤ x) (h2 : x ≤ hi) (hmod : lo % 86400 ≤ hi % 86400) :
    dayKey x ∈ scanDays lo hi := by
  have hlh : lo ≤ hi := le_trans h1 h2
  rw [scanDays_eq lo hi hlh]
  refine List.mem_map.mpr ⟨(dayKey x - dayKey lo).toNat, List.mem_range.mpr ?_, ?_⟩
  · show (dayKey x - dayKey lo).toNat < (hi - lo).toNat / 86400 + 1
    unfold dayKey
    omega
  · show dayKey lo + (((dayKey x - dayKey lo).toNat : Nat) : Int) = dayKey x
    unfold dayKey
    omega

/-! ## C7 -/

/-- The record of the C7 counterexample: 02:00 on epoch day 1. -/
def c7Ad : ProcessedAdData :=
  { Date := 93600, CampaignID := "c", Channel := "g", Clicks := 1,
    Impressions := 1, Cost := 0, UTMCampaign := "s", UTMSource := "g",
    UTMMedium := "m", ProcessedAt := 0 }

/-- C7 counterexample: the interval `[18000, 97200]` (05:00 day 0 to 03:00
day 1) covers the stored record's date `93600`, yet the range scan returns
no records: the claim fails for a covering interval whose start time of day
is later than its end time of day. -/
theorem c7_range_scan_counterexample :
    (18000 : Int) ≤ c7Ad.Date ∧ c7Ad.Date ≤ 97200 ∧
    AdRepository.GetByDateRange (AdRepository.Store [] [c7Ad]) 18000 97200 = [] ∧
    ([c7Ad] : List ProcessedAdData).length = 1 := by
  refine ⟨by norm_num [c7Ad], by norm_num [c7Ad], ?_, rfl⟩
  rfl

/-- C7 (amended): storing a batch into the empty store and range-scanning an
interval `[lo, hi]` that covers every record's date returns exactly the batch
(up to order), provided `lo`'s time-of-day is not later than `hi`'s — in
particular whenever both endpoints are midnight-aligned.  (With `lo`'s
time-of-day later than `hi`'s, records on the last covered day can be
missed, as the counterexample shows.) -/
theorem c7_store_scan_roundtrip_aligned (ads : List ProcessedAdData) (lo hi : Int)
    (hcov : ∀ a ∈ ads, lo ≤ a.Date ∧ a.Date ≤ hi)
    (hmod : lo % 86400 ≤ hi % 86400) :
    (AdRepository.GetByDateRange (AdRepository.Store [] ads) lo hi).Perm ads := by
  unfold AdRepository.GetByDateRange AdRepository.Store collectRange
  have hlk : ∀ t : Int, lookupDay (storeBatch (fun a => a.Date) [] ads) (dayKey t) =
      ads.filter (fun a => decide (dayKey a.Date = dayKey t)) := by
    intro t
    rw [lookupDay_storeBatch]
    simp [lookupDay]
  rw [List.flatMap_congr (fun t _ => hlk t)]
  have hmm : (scanTimes lo hi).flatMap
        (fun t => ads.filter (fun a => decide (dayKey a.Date = dayKey t))) =
      (scanDays lo hi).flatMap (fun d => ads.filter (fun a => decide (dayKey a.Date = d))) := by
    unfold scanDays
    rw [List.flatMap_map]
  rw [hmm]
  exact perm_flatMap_filter (fun a => dayKey a.Date) ads (scanDays lo hi) (scanDays_nodup lo hi)
    (fun a ha => mem_scanDays_of_bounds lo hi a.Date (hcov a ha).1 (hcov a ha).2 hmod)

/-- Witness for the amended C7 with midnight-aligned endpoints. -/
theorem c7_store_scan_roundtrip_aligned_witness :
    (AdRepository.GetByDateRange (AdRepository.Store [] [c7Ad]) 86400 172800).Perm [c7Ad] :=
  c7_store_scan_roundtrip_aligned [c7Ad] 86400 172800
    (by
      intro a ha
      rcases List.mem_cons.mp ha with h | h
      · rw [h]
        exact ⟨by norm_num [c7Ad], by norm_num [c7Ad]⟩
      · simp at h)
    (by norm_num)

/-! ## Pagination lemmas -/

/-- `GetByFilter` written with its pipeline stages expanded. -/
theorem GetByFilter_eq (s : PartStore BusinessMetrics) (now : Int) (f : MetricsFilter) :
    MetricsRepository.GetByFilter s now f =
      { Data := sliceClamped (sortByDate (MetricsRepository.filteredFor s now f))
          ((MetricsRepository.filteredFor s now f).length : Int) (effOffset f) (effLimit f)
        Total := (MetricsRepository.filteredFor s now f).length
        Limit := effLimit f
        Offset := effOffset f
        HasMore := decide
          ((if ((MetricsRepository.filteredFor s now f).length : Int) < effOffset f + effLimit f
            then ((MetricsRepository.filteredFor s now f).length : Int)
            else effOffset f + effLimit f) <
            ((MetricsRepository.filteredFor s now f).length : Int)) } := rfl

/-- The effective offset is never negative. -/
theorem effOffset_nonneg (f : MetricsFilter) : 0 ≤ effOffset f := by
  unfold effOffset
  split_ifs <;> omega

/-- The effective limit is always positive. -/
theorem effLimit_pos (f : MetricsFilter) : 0 < effLimit f := by
  unfold effLimit
  split_ifs <;> omega

/-- The clamped slice `sorted[start:end]` equals dropping `offset` then
taking `limit` records, for a non-negative offset and positive limit. -/
theorem sliceClamped_eq (l : List BusinessMetrics) (total offset limit : Int)
    (ht : total = (l.length : Int)) (ho : 0 ≤ offset) (hl : 0 < limit) :
    sliceClamped l total offset limit = (l.drop offset.toNat).take limit.toNat := by
  simp only [sliceClamped]
  by_cases h1 : total < offset
  · rw [if_pos h1, if_pos (show total < offset + limit by omega), if_neg (lt_irrefl total),
      List.drop_eq_nil_of_le (by omega), List.take_nil]
  · rw [if_neg h1]
    by_cases h2 : total < offset + limit
    · rw [if_pos h2]
      by_cases h3 : offset < total
      · rw [if_pos h3]
        rw [List.take_of_length_le (by rw [List.length_drop]; omega),
          List.take_of_length_le (by rw [List.length_drop]; omega)]
      · rw [if_neg h3, List.drop_eq_nil_of_le (by omega), List.take_nil]
    · rw [if_neg h2, if_pos (show offset < offset + limit by omega),
        show (offset + limit - offset).toNat = limit.toNat from by omega]

/-- The `hasMore` flag of `GetByFilter` is set exactly when
`offset + limit < total`. -/
theorem hasMore_iff (total offset limit : Int) :
    (decide ((if total < offset + limit then total else offset + limit) < total) = true) ↔
      offset + limit < total := by
  rw [decide_eq_true_eq]
  split_ifs with h <;> omega

/-! ## C3 -/

/-- C3: `GetByFilter` sorts the matching records ascending by date, returns
the contiguous slice `[offset, offset+limit)` clamped to bounds (with limit
defaulting to 100 and offset to 0 when unset), never returns more than
`limit` records, reports the matching-record count as `total`, and sets
`hasMore` exactly when `offset + limit < total`. -/
theorem c3_pagination_contract (s : PartStore BusinessMetrics) (now : Int) (f : MetricsFilter) :
    (∃ sorted : List BusinessMetrics,
      sorted.Perm (MetricsRepository.filteredFor s now f) ∧
      List.Sorted dateLE sorted ∧
      (MetricsRepository.GetByFilter s now f).Data =
        (sorted.drop (effOffset f).toNat).take (effLimit f).toNat ∧
      (MetricsRepository.GetByFilter s now f).Data.length ≤ (effLimit f).toNat ∧
      (MetricsRepository.GetByFilter s now f).Total =
        (MetricsRepository.filteredFor s now f).length ∧
      ((MetricsRepository.GetByFilter s now f).HasMore = true ↔
        effOffset f + effLimit f < ((MetricsRepository.filteredFor s now f).length : Int))) ∧
    (f.Limit ≤ 0 → effLimit f = 100) ∧
    (f.Offset ≤ 0 → effOffset f = 0) := by
  have hperm := List.perm_insertionSort dateLE (MetricsRepository.filteredFor s now f)
  have hlen : ((MetricsRepository.filteredFor s now f).length : Int) =
      ((sortByDate (MetricsRepository.filteredFor s now f)).length : Int) := by
    exact_mod_cast hperm.length_eq.symm
  have hdata : (MetricsRepository.GetByFilter s now f).Data =
      ((sortByDate (MetricsRepository.filteredFor s now f)).drop (effOffset f).toNat).take
        (effLimit f).toNat := by
    rw [GetByFilter_eq]
    exact sliceClamped_eq _ _ _ _ hlen (effOffset_nonneg f) (effLimit_pos f)
  refine ⟨⟨sortByDate (MetricsRepository.filteredFor s now f), hperm,
    List.sorted_insertionSort dateLE _, hdata, ?_, rfl, ?_⟩, ?_, ?_⟩
  · rw [hdata, List.length_take]
    exact min_le_left _ _
  · rw [GetByFilter_eq]
    exact hasMore_iff _ _ _
  · intro h
    unfold effLimit
    rw [if_neg (by omega)]
  · intro h
    unfold effOffset
    rw [if_neg (by omega)]

/-- The all-unset filter used by several witnesses. -/
def emptyFilter : MetricsFilter :=
  { From := none, To := none, Channel := "", CampaignID := "", UTMCampaign := "",
    UTMSource := "", UTMMedium := "", Limit := 0, Offset := 0 }

/-- Witness for C3 on the empty store with the all-unset filter. -/
theorem c3_pagination_contract_witness :
    (∃ sorted : List BusinessMetrics,
      sorted.Perm (MetricsRepository.filteredFor [] 0 emptyFilter) ∧
      List.Sorted dateLE sorted ∧
      (MetricsRepository.GetByFilter [] 0 emptyFilter).Data =
        (sorted.drop (effOffset emptyFilter).toNat).take (effLimit emptyFilter).toNat ∧
      (MetricsRepository.GetByFilter [] 0 emptyFilter).Data.length ≤ (effLimit emptyFilter).toNat ∧
      (MetricsRepository.GetByFilter [] 0 emptyFilter).Total =
        (MetricsRepository.filteredFor [] 0 emptyFilter).length ∧
      ((MetricsRepository.GetByFilter [] 0 emptyFilter).HasMore = true ↔
        effOffset emptyFilter + effLimit emptyFilter <
          ((MetricsRepository.filteredFor [] 0 emptyFilter).length : Int))) ∧
    effLimit emptyFilter = 100 ∧ effOffset emptyFilter = 0 :=
  ⟨(c3_pagination_contract [] 0 emptyFilter).1,
    (c3_pagination_contract [] 0 emptyFilter).2.1 (by decide),
    (c3_pagination_contract [] 0 emptyFilter).2.2 (by decide)⟩

/-! ## C10 -/

/-- C10: a non-positive `Limit` is treated as unset (default 100) and a
non-positive `Offset` as unset (default 0): the whole response equals the
response for the defaulted filter, and with both defaulted the page holds
`min 100 total` records — never an error, a negative slice bound, or an
empty page unless no records match. -/
theorem c10_nonpositive_pagination_defaults (s : PartStore BusinessMetrics)
    (now : Int) (f : MetricsFilter) :
    (f.Limit ≤ 0 → MetricsRepository.GetByFilter s now f =
      MetricsRepository.GetByFilter s now { f with Limit := 100 }) ∧
    (f.Offset ≤ 0 → MetricsRepository.GetByFilter s now f =
      MetricsRepository.GetByFilter s now { f with Offset := 0 }) ∧
    (f.Limit ≤ 0 → f.Offset ≤ 0 →
      (MetricsRepository.GetByFilter s now f).Data.length =
        min 100 (MetricsRepository.GetByFilter s now f).Total) := by
  refine ⟨?_, ?_, ?_⟩
  · intro h
    have hff : MetricsRepository.filteredFor s now { f with Limit := 100 } =
        MetricsRepository.filteredFor s now f := rfl
    have heo : effOffset { f with Limit := 100 } = effOffset f := rfl
    have hel1 : effLimit f = 100 := by
      unfold effLimit
      rw [if_neg (by omega)]
    have hel2 : effLimit { f with Limit := 100 } = 100 := by
      unfold effLimit
      norm_num
    rw [GetByFilter_eq, GetByFilter_eq, hff, heo, hel1, hel2]
  · intro h
    have hff : MetricsRepository.filteredFor s now { f with Offset := 0 } =
        MetricsRepository.filteredFor s now f := rfl
    have hel : effLimit { f with Offset := 0 } = effLimit f := rfl
    have heo1 : effOffset f = 0 := by
      unfold effOffset
      rw [if_neg (by omega)]
    have heo2 : effOffset { f with Offset := 0 } = 0 := by
      unfold effOffset
      norm_num
    rw [GetByFilter_eq, GetByFilter_eq, hff, hel, heo1, heo2]
  · intro h1 h2
    have hperm := List.perm_insertionSort dateLE (MetricsRepository.filteredFor s now f)
    have hlen : ((MetricsRepository.filteredFor s now f).length : Int) =
        ((sortByDate (MetricsRepository.filteredFor s now f)).length : Int) := by
      exact_mod_cast hperm.length_eq.symm
    have hdata : (MetricsRepository.GetByFilter s now f).Data =
        ((sortByDate (MetricsRepository.filteredFor s now f)).drop (effOffset f).toNat).take
          (effLimit f).toNat := by
      rw [GetByFilter_eq]
      exact sliceClamped_eq _ _ _ _ hlen (effOffset_nonneg f) (effLimit_pos f)
    have hel : effLimit f = 100 := by
      unfold effLimit
      rw [if_neg (by omega)]
    have heo : effOffset f = 0 := by
      unfold effOffset
      rw [if_neg (by omega)]
    rw [hdata, hel, heo, List.length_take, List.length_drop]
    have htot : (MetricsRepository.GetByFilter s now f).Total =
        (MetricsRepository.filteredFor s now f).length := rfl
    rw [htot]
    have := hperm.length_eq
    omega

/-- Witness for C10 with a negative limit and offset on the empty store. -/
theorem c10_nonpositive_pagination_defaults_witness :
    (MetricsRepository.GetByFilter [] 0 { emptyFilter with Limit := -5, Offset := -7 } =
      MetricsRepository.GetByFilter [] 0
        { emptyFilter with Limit := 100, Offset := -7 }) ∧
    (MetricsRepository.GetByFilter [] 0 { emptyFilter with Limit := -5, Offset := -7 }).Data.length =
      min 100 (MetricsRepository.GetByFilter [] 0 { emptyFilter with Limit := -5, Offset := -7 }).Total :=
  ⟨(c10_nonpositive_pagination_defaults [] 0 { emptyFilter with Limit := -5, Offset := -7 }).1
      (by decide),
    (c10_nonpositive_pagination_defaults [] 0 { emptyFilter with Limit := -5, Offset := -7 }).2.2
      (by decide) (by decide)⟩

/-! ## C9 -/

/-- Every record of the store sits under its own date's day key; `Store`
only ever appends records under `Format(record.Date)`. -/
def wellFormedStore (s : PartStore BusinessMetrics) : Prop :=
  ∀ p ∈ s, ∀ m ∈ p.2, dayKey m.Date = p.1

/-- In a well-formed store, a record read under day key `k` dates to `k`. -/
theorem mem_lookupDay_wf {s : PartStore BusinessMetrics} {k : Int} {m : BusinessMetrics}
    (hwf : wellFormedStore s) (hm : m ∈ lookupDay s k) : dayKey m.Date = k := by
  induction s with
  | nil => simp [lookupDay] at hm
  | cons p rest ih =>
    obtain ⟨k₀, l⟩ := p
    simp only [lookupDay] at hm
    by_cases h : k₀ = k
    · rw [if_pos h] at hm
      have := hwf (k₀, l) (List.mem_cons_self _ _) m hm
      rw [← h]
      exact this
    · rw [if_neg h] at hm
      exact ih (fun p hp => hwf p (List.mem_cons_of_mem _ hp)) hm

/-- C9: with both date bounds unset, only records stored under day keys from
365 days before `now` through `now` can appear in the response, whatever the
limit and offset; day keys outside that window are never visited. -/
theorem c9_implicit_window (s : PartStore BusinessMetrics) (now : Int) (f : MetricsFilter)
    (hwf : wellFormedStore s) (hFrom : f.From = none) (hTo : f.To = none) :
    ∀ m ∈ (MetricsRepository.GetByFilter s now f).Data,
      dayKey now - 365 ≤ dayKey m.Date ∧ dayKey m.Date ≤ dayKey now := by
  intro m hm
  have hperm := List.perm_insertionSort dateLE (MetricsRepository.filteredFor s now f)
  have hlen : ((MetricsRepository.filteredFor s now f).length : Int) =
      ((sortByDate (MetricsRepository.filteredFor s now f)).length : Int) := by
    exact_mod_cast hperm.length_eq.symm
  have hdata : (MetricsRepository.GetByFilter s now f).Data =
      ((sortByDate (MetricsRepository.filteredFor s now f)).drop (effOffset f).toNat).take
        (effLimit f).toNat := by
    rw [GetByFilter_eq]
    exact sliceClamped_eq _ _ _ _ hlen (effOffset_nonneg f) (effLimit_pos f)
  rw [hdata] at hm
  have hm2 : m ∈ sortByDate (MetricsRepository.filteredFor s now f) :=
    List.mem_of_mem_drop (List.mem_of_mem_take hm)
  have hm3 : m ∈ MetricsRepository.filteredFor s now f := hperm.mem_iff.mp hm2
  unfold MetricsRepository.filteredFor at hm3
  have hm4 : m ∈ collectRange s (effFrom f now) (effTo f now) := List.mem_of_mem_filter hm3
  unfold collectRange at hm4
  rw [List.mem_flatMap] at hm4
  obtain ⟨t, ht, hmt⟩ := hm4
  have hk : dayKey m.Date = dayKey t := mem_lookupDay_wf hwf hmt
  have heF : effFrom f now = now - 365 * 86400 := by
    unfold effFrom
    rw [hFrom]
  have heT : effTo f now = now := by
    unfold effTo
    rw [hTo]
  rw [heF, heT] at ht
  unfold scanTimes at ht
  rw [if_pos (by omega)] at ht
  rw [List.mem_map] at ht
  obtain ⟨k, hk2, rfl⟩ := ht
  rw [List.mem_range] at hk2
  rw [hk]
  unfold dayKey
  omega

/-- The stored bucket of the C9 witness. -/
def c9Metric : BusinessMetrics :=
  { Date := 0, Channel := "g", CampaignID := "c", UTMCampaign := "s",
    UTMSource := "g", UTMMedium := "m", Clicks := 0, Impressions := 0,
    Cost := 0, Leads := 0, Opportunities := 0, ClosedWon := 0, Revenue := 0,
    CPC := 0, CPA := 0, CVRLeadToOpp := 0, CVROppToWon := 0, ROAS := 0,
    CalculatedAt := 0 }

set_option maxRecDepth 8000 in
/-- Witness for C9: a bucket on day 0 queried at `now = 0`. -/
theorem c9_implicit_window_witness :
    dayKey 0 - 365 ≤ dayKey c9Metric.Date ∧ dayKey c9Metric.Date ≤ dayKey 0 :=
  c9_implicit_window [(0, [c9Metric])] 0 emptyFilter
    (by unfold wellFormedStore; decide) rfl rfl c9Metric (by decide)

/-! ## C5 -/

/-- C5: the flexible date parse tries the layouts in their fixed priority
order and returns the first successful parse, failing only when every layout
fails; the ad-source order is `YYYY-MM-DD`, `YYYY/MM/DD`, `MM/DD/YYYY`,
`DD/MM/YYYY`, RFC 3339, so the ambiguous `03/04/2025` parses as `MM/DD/YYYY`
(March 4), not as the later `DD/MM/YYYY` reading (April 3). -/
theorem c5_flexible_date_priority :
    adDateFormats = [Layout.ymdDash, Layout.ymdSlash, Layout.mdy, Layout.dmy, Layout.rfc3339] ∧
    (∀ (formats : List Layout) (s : String),
      parseFlexibleDate formats s = none ↔ ∀ f ∈ formats, parseLayout f s = none) ∧
    (∀ (pre : List Layout) (f : Layout) (post : List Layout) (s : String),
      (∀ g ∈ pre, parseLayout g s = none) → parseLayout f s ≠ none →
      parseFlexibleDate (pre ++ f :: post) s = parseLayout f s) ∧
    parseFlexibleDate adDateFormats ("03/04/2025") = some ⟨2025, 3, 4, 0, 0, 0, 0⟩ ∧
    parseLayout Layout.mdy ("03/04/2025") = some ⟨2025, 3, 4, 0, 0, 0, 0⟩ ∧
    parseLayout Layout.dmy ("03/04/2025") = some ⟨2025, 4, 3, 0, 0, 0, 0⟩ := by
  refine ⟨rfl, ?_, ?_, by decide, by decide, by decide⟩
  · intro formats s
    induction formats with
    | nil => simp [parseFlexibleDate]
    | cons f rest ih =>
      rcases h : parseLayout f s with _ | d
      · simp [parseFlexibleDate, h, ih]
      · simp [parseFlexibleDate, h]
  · intro pre
    induction pre with
    | nil =>
      intro f post s _ hf
      rcases h : parseLayout f s with _ | d
      · exact absurd h hf
      · simp [parseFlexibleDate, h]
    | cons g pre ih =>
      intro f post s hpre hf
      have hg : parseLayout g s = none := hpre g (List.mem_cons_self _ _)
      show parseFlexibleDate (g :: (pre ++ f :: post)) s = parseLayout f s
      rw [show parseFlexibleDate (g :: (pre ++ f :: post)) s =
          parseFlexibleDate (pre ++ f :: post) s from by simp [parseFlexibleDate, hg]]
      exact ih f post s (fun x hx => hpre x (List.mem_cons_of_mem _ hx)) hf

/-- Witness for C5: on `2025/06/07` the first layout fails and the second
succeeds, so the loop returns the second layout's parse. -/
theorem c5_flexible_date_priority_witness :
    parseFlexibleDate adDateFormats ("2025/06/07") =
      parseLayout Layout.ymdSlash ("2025/06/07") :=
  c5_flexible_date_priority.2.2.1 [Layout.ymdDash] Layout.ymdSlash
    [Layout.mdy, Layout.dmy, Layout.rfc3339] ("2025/06/07") (by decide) (by decide)

/-! ## C6 -/

/-- C6: the ad transform handles records independently — a record whose date
fails every layout is dropped and counts one `date_parse` failure (the batch
continues), a record dated strictly before `since` is dropped without
counting, and every other record is emitted with its parsed date and with
empty UTM fields replaced by `"unknown"` (non-empty fields unchanged). -/
theorem c6_transform_ads_per_record :
    (∀ (ads : List AdPerformance) (since : Option Int) (now : Int),
      processAdsData ads since now =
        (ads.filterMap (fun ad =>
            match parseFlexibleDate adDateFormats ad.Date with
            | none => none
            | some dp =>
                if droppedBySince since (toInstant dp) then none
                else some (normalizeAd ad (toInstant dp) now)),
         (ads.filter (fun ad => (parseFlexibleDate adDateFormats ad.Date).isNone)).length)) ∧
    normalizeUTM ("") = "unknown" ∧
    (∀ v : String, v ≠ "" → normalizeUTM v = v) := by
  refine ⟨?_, rfl, ?_⟩
  · intro ads since now
    induction ads with
    | nil => rfl
    | cons ad rest ih =>
      show processAdsData (ad :: rest) since now = _
      rw [List.filterMap_cons, List.filter_cons]
      unfold processAdsData
      rw [ih]
      rcases h : parseFlexibleDate adDateFormats ad.Date with _ | dp
      · simp [h]
      · by_cases hd : droppedBySince since (toInstant dp)
        · simp [h, hd]
        · simp [h, hd, normalizeAd, normalizeUTM]
  · intro v hv
    unfold normalizeUTM
    rw [if_neg hv]

/-- Ad batch of the C6 witness: one good record with empty UTM fields and
one unparseable record. -/
def c6Ads : List AdPerformance :=
  [{ Date := "2025-01-01", CampaignID := "c", Channel := "g", Clicks := 5,
     Impressions := 10, Cost := 2, UTMCampaign := "", UTMSource := "srch",
     UTMMedium := "" },
   { Date := "not-a-date", CampaignID := "c2", Channel := "g2", Clicks := 1,
     Impressions := 1, Cost := 1, UTMCampaign := "a", UTMSource := "b",
     UTMMedium := "c" }]

set_option maxRecDepth 8000 in
/-- Witness for C6: the good record is normalized (empty UTM fields become
`"unknown"`), the bad record is dropped and counted once. -/
theorem c6_transform_ads_per_record_witness :
    processAdsData c6Ads none 0 =
      ([{ Date := 1735689600, CampaignID := "c", Channel := "g", Clicks := 5,
          Impressions := 10, Cost := 2, UTMCampaign := "unknown",
          UTMSource := "srch", UTMMedium := "unknown", ProcessedAt := 0 }], 1) ∧
    normalizeUTM ("x") = "x" := by
  constructor
  · rw [c6_transform_ads_per_record.1 c6Ads none 0]
    decide
  · exact c6_transform_ads_per_record.2.2 ("x") (by decide)

end Etlgo
